import Mathlib

/-!
Verification development for the raspsentinel network sentinel.

The definitions below are a shallow embedding of the Python sources:
`store.py` (device registry), `blocker.py` (ARP block sessions),
`scanner.py` (discovery snapshots), `utils.py` (external command wrapper)
and the reconciliation loop of `main.py`.  Timestamps (`datetime.now`)
are modelled as a `Nat` parameter threaded into each call; the two
`datetime.now()` invocations inside a single `upsert_device` call are
modelled as one timestamp.  Python string truthiness (`if s:`) is
modelled by `pyTruthy` on `Option String` (`None` and `""` are falsy).
-/

/-- Python `str.upper()` (ASCII), evaluated character-wise. -/
def pyUpper (s : String) : String := ⟨s.data.map Char.toUpper⟩

/-- Python `str.lower()` (ASCII), evaluated character-wise. -/
def pyLower (s : String) : String := ⟨s.data.map Char.toLower⟩

/-- Python `str.strip()`: drop whitespace from both ends. -/
def pyStrip (s : String) : String :=
  ⟨((s.data.dropWhile Char.isWhitespace).reverse.dropWhile Char.isWhitespace).reverse⟩

/-- Python truthiness of a `str | None` value: `None` and `""` are falsy. -/
def pyTruthy : Option String → Bool
  | none => false
  | some s => s ≠ ""

/-- Python `a or b` on `str | None` operands (returns `b` unevaluated-as-is when `a` is falsy). -/
def pyOr (a b : Option String) : Option String :=
  if pyTruthy a then a else b

/-- One device record of the persisted registry document (`devices.json`).
A Python dict key that may be absent is modelled with an outer `Option`
(`none` = key absent); `ip`, `vendor`, `notes` store `str | None` values,
hence `Option (Option String)`.  The `name`, `allow`, `block` keys are
present in every creation path of `store.py`, so they carry the value
directly. -/
structure DeviceRecord where
  name : Option String
  first_seen : Option Nat
  last_seen : Option Nat
  allow : Bool
  block : Bool
  ip : Option (Option String)
  vendor : Option (Option String)
  notes : Option (Option String)
deriving Repr, DecidableEq

/-- The `devices` mapping of the registry document: an insertion-ordered
dictionary from canonical MAC to record, as a key-unique association list. -/
abbrev Devices := List (String × DeviceRecord)

/-- Dictionary lookup `d.get(m)`. -/
def getDev : Devices → String → Option DeviceRecord
  | [], _ => none
  | (k, v) :: t, m => if k = m then some v else getDev t m

/-- Dictionary update `d[m] = r`: replace in place, or append when absent. -/
def setDev : Devices → String → DeviceRecord → Devices
  | [], m, r => [(m, r)]
  | (k, v) :: t, m, r => if k = m then (m, r) :: t else (k, v) :: setDev t m r

/-- The whole persisted document: `{"devices": {...}, "block_applied": [...]}`. -/
structure RegistryDoc where
  devices : Devices
  block_applied : List String
deriving Repr, DecidableEq

/-- The initial document written by `Store.__init__`. -/
def emptyDoc : RegistryDoc := { devices := [], block_applied := [] }

/-- Embedding of `Store.upsert_device(mac, ip, vendor)` at logical time `now`. -/
def upsert_device (doc : RegistryDoc) (mac : String) (ip vendor : Option String)
    (now : Nat) : RegistryDoc :=
  let m := (pyUpper mac)
  let dev := (getDev doc.devices m).getD
    { name := none, first_seen := some now, allow := false, block := false,
      vendor := some vendor, notes := some none, last_seen := none, ip := none }
  let dev := { dev with
    ip := some ip,
    vendor := some (pyOr vendor (dev.vendor.getD none)),
    last_seen := some now }
  { doc with devices := setDev doc.devices m dev }

/-- Embedding of `Store.mark_allow(mac, name)`. -/
def mark_allow (doc : RegistryDoc) (mac : String) (name : Option String) : RegistryDoc :=
  let m := (pyUpper mac)
  match getDev doc.devices m with
  | none =>
      let r0 : DeviceRecord :=
        { name := name, allow := true, block := false,
          first_seen := none, last_seen := none, ip := none,
          vendor := none, notes := none }
      { doc with devices := setDev doc.devices m r0 }
  | some dev =>
      let dev := { dev with allow := true, block := false }
      let dev := if pyTruthy name then { dev with name := name } else dev
      { doc with devices := setDev doc.devices m dev }

/-- Embedding of `Store.mark_block(mac, reason)`; the `if reason:` notes update runs
after either branch, exactly as in the source. -/
def mark_block (doc : RegistryDoc) (mac : String) (reason : Option String) : RegistryDoc :=
  let m := (pyUpper mac)
  let devs :=
    match getDev doc.devices m with
    | none =>
        setDev doc.devices m
          ({ name := none, allow := false, block := true,
             first_seen := none, last_seen := none, ip := none,
             vendor := none, notes := none })
    | some dev => setDev doc.devices m ({ dev with block := true, allow := false })
  let devs :=
    if pyTruthy reason then
      match getDev devs m with
      | some dev => setDev devs m ({ dev with notes := some reason })
      | none => devs
    else devs
  { doc with devices := devs }

/-- Embedding of `Store.unallow(mac)`. -/
def unallow (doc : RegistryDoc) (mac : String) : RegistryDoc :=
  let m := (pyUpper mac)
  match getDev doc.devices m with
  | none => doc
  | some dev => { doc with devices := setDev doc.devices m ({ dev with allow := false }) }

/-- Embedding of `Store.unblock(mac)`. -/
def store_unblock (doc : RegistryDoc) (mac : String) : RegistryDoc :=
  let m := (pyUpper mac)
  match getDev doc.devices m with
  | none => doc
  | some dev => { doc with devices := setDev doc.devices m ({ dev with block := false }) }

/-- Embedding of `Store.set_name(mac, name)`. -/
def set_name (doc : RegistryDoc) (mac : String) (name : String) : RegistryDoc :=
  let m := (pyUpper mac)
  match getDev doc.devices m with
  | none => doc
  | some dev => { doc with devices := setDev doc.devices m ({ dev with name := some name }) }

theorem getDev_setDev (d : Devices) (m m' : String) (r : DeviceRecord) :
    getDev (setDev d m r) m' = if m' = m then some r else getDev d m' := by
  induction d with
  | nil =>
      simp only [setDev, getDev]
      by_cases h : m = m'
      · rw [if_pos h, if_pos h.symm]
      · rw [if_neg h, if_neg (fun hh => h hh.symm)]
  | cons p t ih =>
      obtain ⟨k, v⟩ := p
      simp only [setDev]
      by_cases hk : k = m
      · rw [if_pos hk]
        simp only [getDev]
        by_cases h1 : m = m'
        · rw [if_pos h1, if_pos h1.symm]
        · have h2 : ¬ m' = m := fun hh => h1 hh.symm
          have h3 : ¬ k = m' := fun hh => h1 (hk ▸ hh)
          rw [if_neg h1, if_neg h2, if_neg h3]
      · rw [if_neg hk]
        simp only [getDev]
        by_cases h2 : k = m'
        · have h3 : ¬ m' = m := fun hh => hk (h2.trans hh)
          rw [if_pos h2, if_neg h3, if_pos h2]
        · rw [if_neg h2, ih, if_neg h2]

theorem mem_setDev {d : Devices} {m : String} {r : DeviceRecord}
    {p : String × DeviceRecord} (h : p ∈ setDev d m r) : p = (m, r) ∨ p ∈ d := by
  induction d with
  | nil => simpa [setDev] using h
  | cons q t ih =>
      obtain ⟨k, v⟩ := q
      simp only [setDev] at h
      by_cases hk : k = m
      · simp only [if_pos hk, List.mem_cons] at h
        rcases h with h | h
        · exact Or.inl h
        · exact Or.inr (List.mem_cons_of_mem _ h)
      · simp only [if_neg hk, List.mem_cons] at h
        rcases h with h | h
        · exact Or.inr (by simp [h])
        · rcases ih h with h' | h'
          · exact Or.inl h'
          · exact Or.inr (List.mem_cons_of_mem _ h')

theorem getDev_mem {d : Devices} {m : String} {r : DeviceRecord}
    (h : getDev d m = some r) : (m, r) ∈ d := by
  induction d with
  | nil => simp [getDev] at h
  | cons q t ih =>
      obtain ⟨k, v⟩ := q
      simp only [getDev] at h
      split_ifs at h with hk
      · cases h
        subst hk
        exact List.mem_cons_self _ _
      · exact List.mem_cons_of_mem _ (ih h)

/-- One registry mutation, as dispatched by the bot command surface and the
reconciliation loop (`store.py` public mutators). -/
inductive Op
  | upsertOp (mac : String) (ip vendor : Option String) (now : Nat)
  | markAllowOp (mac : String) (name : Option String)
  | markBlockOp (mac : String) (reason : Option String)
  | unallowOp (mac : String)
  | unblockOp (mac : String)
  | setNameOp (mac : String) (name : String)

/-- Apply one registry mutation. -/
def applyOp (doc : RegistryDoc) : Op → RegistryDoc
  | .upsertOp mac ip vendor now => upsert_device doc mac ip vendor now
  | .markAllowOp mac name => mark_allow doc mac name
  | .markBlockOp mac reason => mark_block doc mac reason
  | .unallowOp mac => unallow doc mac
  | .unblockOp mac => store_unblock doc mac
  | .setNameOp mac name => set_name doc mac name

/-- The allowed/blocked mutual-exclusion predicate `not (allowed and blocked)`,
checked on every record of the mapping. -/
def mutexOK (devs : Devices) : Bool :=
  devs.all (fun p => !(p.2.allow && p.2.block))

theorem upsert_getDev_none (doc : RegistryDoc) (mac : String) (ip vendor : Option String)
    (now : Nat) (h : getDev doc.devices (pyUpper mac) = none) :
    getDev (upsert_device doc mac ip vendor now).devices (pyUpper mac)
      = some { name := none, first_seen := some now, allow := false, block := false,
               vendor := some vendor, notes := some none,
               last_seen := some now, ip := some ip } := by
  unfold upsert_device
  simp only [h, Option.getD_none, getDev_setDev]
  simp [pyOr]

theorem upsert_getDev_some (doc : RegistryDoc) (mac : String) (ip vendor : Option String)
    (now : Nat) (r : DeviceRecord) (h : getDev doc.devices (pyUpper mac) = some r) :
    getDev (upsert_device doc mac ip vendor now).devices (pyUpper mac)
      = some { r with ip := some ip,
                      vendor := some (pyOr vendor (r.vendor.getD none)),
                      last_seen := some now } := by
  unfold upsert_device
  simp only [h, Option.getD_some, getDev_setDev]
  simp

theorem upsert_getDev_other (doc : RegistryDoc) (mac : String) (ip vendor : Option String)
    (now : Nat) (m' : String) (h : m' ≠ (pyUpper mac)) :
    getDev (upsert_device doc mac ip vendor now).devices m' = getDev doc.devices m' := by
  unfold upsert_device
  simp only [getDev_setDev, if_neg h]

/-- A consecutive run of `upsert_device` calls for one MAC:
each list element is `(ip, vendor, now)`. -/
def applyUpserts (doc : RegistryDoc) (mac : String) :
    List (Option String × Option String × Nat) → RegistryDoc
  | [] => doc
  | (ip, vendor, now) :: rest =>
      applyUpserts (upsert_device doc mac ip vendor now) mac rest

/-- The `now` of the last call in a run of upserts, or `d` if the run is empty. -/
def lastTime (d : Nat) : List (Option String × Option String × Nat) → Nat
  | [] => d
  | u :: rest => lastTime u.2.2 rest

/-- The `last_seen` value after a run of upserts starting from `d`. -/
def lastSeenAfter (d : Option Nat) : List (Option String × Option String × Nat) → Option Nat
  | [] => d
  | u :: rest => lastSeenAfter (some u.2.2) rest

theorem lastSeenAfter_some (t : Nat) (us : List (Option String × Option String × Nat)) :
    lastSeenAfter (some t) us = some (lastTime t us) := by
  induction us generalizing t with
  | nil => rfl
  | cons u rest ih => exact ih u.2.2

theorem applyUpserts_tracks (mac : String)
    (us : List (Option String × Option String × Nat)) :
    ∀ (doc : RegistryDoc) (r : DeviceRecord),
      getDev doc.devices (pyUpper mac) = some r →
      ∃ r', getDev (applyUpserts doc mac us).devices (pyUpper mac) = some r' ∧
            r'.first_seen = r.first_seen ∧
            r'.last_seen = lastSeenAfter r.last_seen us := by
  induction us with
  | nil => exact fun doc r h => ⟨r, h, rfl, rfl⟩
  | cons u rest ih =>
      intro doc r h
      obtain ⟨ip, vendor, now⟩ := u
      have h1 := upsert_getDev_some doc mac ip vendor now r h
      obtain ⟨r', hget, hfs, hls⟩ := ih (upsert_device doc mac ip vendor now) _ h1
      exact ⟨r', hget, hfs, hls⟩

/-! ## Block Session Manager (`blocker.py`) -/

/-- The keys of `ArpSpoofBlocker._entries`, in dict insertion order: one
entry per MAC with an ACTIVE spoofing task. -/
abbrev Sessions := List String

namespace ArpSpoofBlocker

/-- Embedding of `ArpSpoofBlocker.block(mac, ip)`: raises `ValueError` on a falsy IP,
is a no-op when an entry for the canonical MAC already exists, and
otherwise inserts one new entry (spawning its spoof task). -/
def block (s : Sessions) (mac : String) (ip : Option String) : Except String Sessions :=
  let m := (pyUpper mac)
  if pyTruthy ip = false then
    .error ("No hay IP conocida para " ++ m ++ ", no se puede bloquear.")
  else if m ∈ s then .ok s
  else .ok (s ++ [m])

/-- Embedding of `ArpSpoofBlocker.unblock(mac)`: `pop` of the canonical MAC,
a no-op when absent. -/
def unblock (s : Sessions) (mac : String) : Sessions :=
  s.erase (pyUpper mac)

end ArpSpoofBlocker

/-- One call into the block session manager. -/
inductive BlockerOp
  | startOp (mac : String) (ip : Option String)
  | stopOp (mac : String)

/-- Apply one manager call (a failed `start` leaves the entries unchanged). -/
def applyBlockerOp (s : Sessions) : BlockerOp → Sessions
  | .startOp mac ip =>
      match ArpSpoofBlocker.block s mac ip with
      | .ok s' => s'
      | .error _ => s
  | .stopOp mac => ArpSpoofBlocker.unblock s mac

def applyBlockerOps (s : Sessions) : List BlockerOp → Sessions
  | [] => s
  | op :: rest => applyBlockerOps (applyBlockerOp s op) rest

theorem applyBlockerOp_nodup {s : Sessions} (h : s.Nodup) (op : BlockerOp) :
    (applyBlockerOp s op).Nodup := by
  cases op with
  | startOp mac ip =>
      simp only [applyBlockerOp, ArpSpoofBlocker.block]
      split_ifs with h1 h2
      · exact h
      · exact h
      · simpa [List.nodup_append] using ⟨h, h2⟩
  | stopOp mac => exact h.erase _

theorem applyBlockerOps_nodup {s : Sessions} (h : s.Nodup) (ops : List BlockerOp) :
    (applyBlockerOps s ops).Nodup := by
  induction ops generalizing s with
  | nil => exact h
  | cons op rest ih => exact ih (applyBlockerOp_nodup h op)

/-! ## Scanner (`scanner.py`) and command wrapper (`utils.py`) -/

/-- One entry of a scan snapshot (the dicts built by `Scanner.scan`).
`main.py` reads the `ip`/`vendor` keys with `.get`, hence `Option`. -/
structure ScanEntry where
  ip : Option String
  mac : String
  vendor : Option String
deriving Repr, DecidableEq

/-- Outcome of the external discovery command invocation inside `utils.run`. -/
inductive CmdOutcome
  | success (out : String)
  | nonZeroExit (out : String)
  | notFound
  | timedOut
deriving Repr, DecidableEq

/-- The Python exceptions that can escape `utils.run`: `ShellError` is the
module's own wrapper (the spec's ScanError); `subprocess.check_output` raises
`FileNotFoundError` for a missing command and `subprocess.TimeoutExpired` on
timeout. -/
inductive PyExc
  | shellError (msg : String)
  | fileNotFoundError
  | timeoutExpired
deriving Repr, DecidableEq

/-- Is the exception the module's `ShellError` wrapper? -/
def PyExc.isShellError : PyExc → Bool
  | .shellError _ => true
  | _ => false

/-- Embedding of `utils.run(cmd)`: only `CalledProcessError` is caught and re-raised as
`ShellError`; a missing command or a timeout escapes as the raw exception. -/
def run (cmd : List String) : CmdOutcome → Except PyExc String
  | .success out => .ok out
  | .nonZeroExit out =>
      .error (.shellError ("cmd failed: " ++ String.intercalate " " cmd ++ "\n" ++ out))
  | .notFound => .error .fileNotFoundError
  | .timedOut => .error .timeoutExpired

/-- Embedding of `Scanner._normalize_vendor(mac, vendor)`, with the module-level
`VENDOR_LOOKUP` collaborator passed as a function. -/
def normalize_vendor (lookup : String → Option String) (mac : String)
    (vendor : Option String) : Option String :=
  if pyTruthy vendor then
    let text := pyStrip (vendor.getD "")
    if text ≠ "" ∧ pyLower text ≠ "unknown" ∧ pyLower text ≠ "(unknown)" then
      some text
    else lookup mac
  else lookup mac

/-- Embedding of `Scanner._scan_arp_scan`, abstracting the `ARP_RE` line parse: `groups`
is the list of `(ip, mac, vendor)` capture groups, one per matching line. -/
def scan_arp_scan (lookup : String → Option String)
    (groups : List (String × String × String)) : List ScanEntry :=
  groups.map (fun x =>
    let mac := (pyUpper x.2.1)
    { ip := some x.1, mac := mac,
      vendor := normalize_vendor lookup mac (some (pyStrip x.2.2)) })

/-- Embedding of `Scanner._scan_ip_neigh`, abstracting the `IPN_RE` line parse: `groups`
is the list of `(ip, mac)` capture groups, one per matching line. -/
def scan_ip_neigh (lookup : String → Option String)
    (groups : List (String × String)) : List ScanEntry :=
  groups.map (fun x =>
    let mac := (pyUpper x.2)
    { ip := some x.1, mac := mac, vendor := normalize_vendor lookup mac none })

/-- Embedding of `Scanner.scan` for one strategy: invoke the external command, propagate
its failure, otherwise parse the output lines into entries. -/
def scanner_scan (cmd : List String) (o : CmdOutcome)
    (parseLines : String → List ScanEntry) : Except PyExc (List ScanEntry) :=
  match run cmd o with
  | .error e => .error e
  | .ok out => .ok (parseLines out)

/-! ## Reconciliation loop (`main.py` `scan_loop`) -/

/-- Membership test `mac in known_allow` for the pre-cycle snapshot. -/
def knownAllow (devs : Devices) (m : String) : Bool :=
  ((getDev devs m).map (·.allow)).getD false

/-- Membership test `mac in known_block` for the pre-cycle snapshot. -/
def knownBlock (devs : Devices) (m : String) : Bool :=
  ((getDev devs m).map (·.block)).getD false

/-- The body of the per-entry `for dev in seen` loop: upsert, then notify
when the canonical MAC was in neither pre-cycle set.  The accumulator pairs
the evolving document with the list of MACs notified so far this cycle. -/
def cycleStep (preAllow preBlock : String → Bool) (now : Nat)
    (acc : RegistryDoc × List String) (e : ScanEntry) : RegistryDoc × List String :=
  let mac := (pyUpper e.mac)
  let d := upsert_device acc.1 mac e.ip e.vendor now
  if preAllow mac = false ∧ preBlock mac = false then (d, acc.2 ++ [mac])
  else (d, acc.2)

/-- One successful reconciliation cycle over the scan result `seen`:
the allowed/blocked sets are computed from the registry snapshot taken
before any of this cycle's upserts. -/
def cycle (doc : RegistryDoc) (seen : List ScanEntry) (now : Nat) :
    RegistryDoc × List String :=
  seen.foldl (cycleStep (knownAllow doc.devices) (knownBlock doc.devices) now) (doc, [])

/-- One iteration of `scan_loop`'s `try` block: a failed scan is caught by
the blanket `except Exception` handler, which logs and leaves the registry
untouched; a successful scan runs the reconciliation cycle. -/
def scan_loop_cycle (doc : RegistryDoc) (scanRes : Except PyExc (List ScanEntry))
    (now : Nat) : RegistryDoc × List String :=
  match scanRes with
  | .error _ => (doc, [])
  | .ok seen => cycle doc seen now

/-- The reconciliation loop over a finite schedule of cycles, accumulating
all notifications. -/
def scan_loop (doc : RegistryDoc) :
    List (Except PyExc (List ScanEntry) × Nat) → RegistryDoc × List String
  | [] => (doc, [])
  | (res, now) :: rest =>
      let out := scan_loop_cycle doc res now
      let final := scan_loop out.1 rest
      (final.1, out.2 ++ final.2)

/-! ## Persistence (`Store._write`) -/

/-- The two on-disk locations `Store._write` touches: the real
`devices.json` and the `devices.json.tmp` staging file (`none` = absent or
not a complete document). -/
structure FS where
  real : RegistryDoc
  tmp : Option RegistryDoc
deriving Repr, DecidableEq

/-- How one `_write` attempt goes: both failure points are I/O errors from
an unwritable backing location. -/
inductive WriteOutcome
  | ok
  | failTmpWrite
  | failReplace
deriving Repr, DecidableEq

/-- The spec's StorageError: the `OSError` escaping `Store._write`. -/
inductive StorageError
  | oserror
deriving Repr, DecidableEq

/-- Embedding of `Store._write(data)`: dump to the temp path, then `os.replace` it over
the real path.  If writing the temp file fails the real path is never
touched; if the atomic replace fails the temp file is simply not promoted. -/
def store_write (fs : FS) (data : RegistryDoc) : WriteOutcome → FS × Except StorageError Unit
  | .failTmpWrite => ({ fs with tmp := none }, .error .oserror)
  | .failReplace => ({ fs with tmp := some data }, .error .oserror)
  | .ok => ({ real := data, tmp := none }, .ok ())

/-- A mutating store operation as persisted: read the document at the real
path, apply one change `f`, write the whole document back. -/
def mutate_persist (fs : FS) (f : RegistryDoc → RegistryDoc) (o : WriteOutcome) :
    FS × Except StorageError Unit :=
  store_write fs (f fs.real) o

/-! ## Interleaving model for registry mutations

`Store._lock` is taken inside `_read` and inside `_write` separately, so a
mutation is two atomic steps against the shared document: one read (into a
local variable) and one write (of the locally modified document). -/

/-- One in-flight mutation: its pure modify function, its program counter
(0 = before `_read`, 1 = between `_read` and `_write`, 2 = done) and the
document it read. -/
structure RegThread where
  modify : RegistryDoc → RegistryDoc
  pc : Nat
  localDoc : RegistryDoc

/-- Run one atomic step of a mutation against the shared document:
pc 0 performs the locked `_read`, pc 1 performs the locked `_write` of the
locally modified document. -/
def stepThread (shared : RegistryDoc) (t : RegThread) : RegistryDoc × RegThread :=
  if t.pc = 0 then (shared, { t with pc := 1, localDoc := shared })
  else if t.pc = 1 then (t.modify t.localDoc, { t with pc := 2 })
  else (shared, t)

/-- Execute two concurrent mutations under a schedule (`true` = step the
first thread next). -/
def runSched (shared : RegistryDoc) (t1 t2 : RegThread) : List Bool → RegistryDoc
  | [] => shared
  | b :: rest =>
      if b then
        let s := stepThread shared t1
        runSched s.1 s.2 t2 rest
      else
        let s := stepThread shared t2
        runSched s.1 t1 s.2 rest

/-- A mutation about to start. -/
def mkThread (f : RegistryDoc → RegistryDoc) : RegThread :=
  { modify := f, pc := 0, localDoc := emptyDoc }

/-! ## Helper lemmas for the mutual-exclusion invariant -/

theorem mutexOK_iff (devs : Devices) :
    mutexOK devs = true ↔ ∀ p ∈ devs, !(p.2.allow && p.2.block) = true := by
  simp [mutexOK, List.all_eq_true]

theorem mutexOK_setDev {devs : Devices} {m : String} {r : DeviceRecord}
    (hinv : mutexOK devs = true) (hr : !(r.allow && r.block) = true) :
    mutexOK (setDev devs m r) = true := by
  rw [mutexOK_iff] at hinv ⊢
  intro p hp
  rcases mem_setDev hp with h | h
  · subst h
    exact hr
  · exact hinv p h

theorem mutexOK_getDev {devs : Devices} {m : String} {r : DeviceRecord}
    (hinv : mutexOK devs = true) (h : getDev devs m = some r) :
    !(r.allow && r.block) = true :=
  (mutexOK_iff devs).mp hinv _ (getDev_mem h)

theorem mark_allow_getDev (doc : RegistryDoc) (mac : String) (name : Option String) :
    ((getDev (mark_allow doc mac name).devices (pyUpper mac)).map
      (fun r => (r.allow, r.block))) = some (true, false) := by
  cases h : getDev doc.devices (pyUpper mac) with
  | none => simp [mark_allow, h, getDev_setDev]
  | some dev =>
      by_cases hn : pyTruthy name = true <;>
        simp [mark_allow, h, hn, getDev_setDev]

theorem mark_block_getDev (doc : RegistryDoc) (mac : String) (reason : Option String) :
    ((getDev (mark_block doc mac reason).devices (pyUpper mac)).map
      (fun r => (r.allow, r.block))) = some (false, true) := by
  cases h : getDev doc.devices (pyUpper mac) with
  | none =>
      by_cases hr : pyTruthy reason = true <;>
        simp [mark_block, h, hr, getDev_setDev]
  | some dev =>
      by_cases hr : pyTruthy reason = true <;>
        simp [mark_block, h, hr, getDev_setDev]

theorem mutex_preserved_upsert (doc : RegistryDoc) (mac : String)
    (ip vendor : Option String) (now : Nat) (hinv : mutexOK doc.devices = true) :
    mutexOK (upsert_device doc mac ip vendor now).devices = true := by
  unfold upsert_device
  apply mutexOK_setDev hinv
  cases h : getDev doc.devices (pyUpper mac) with
  | none => simp [h]
  | some dev =>
      have hd := mutexOK_getDev hinv h
      simpa [h] using hd

theorem mutex_preserved_mark_allow (doc : RegistryDoc) (mac : String)
    (name : Option String) (hinv : mutexOK doc.devices = true) :
    mutexOK (mark_allow doc mac name).devices = true := by
  cases h : getDev doc.devices (pyUpper mac) with
  | none =>
      simp only [mark_allow, h]
      exact mutexOK_setDev hinv (by simp)
  | some dev =>
      by_cases hn : pyTruthy name = true <;> simp only [mark_allow, h, hn] <;>
        simp only [if_true, Bool.false_eq_true, if_false] <;>
        exact mutexOK_setDev hinv (by simp)

theorem mutex_preserved_mark_block (doc : RegistryDoc) (mac : String)
    (reason : Option String) (hinv : mutexOK doc.devices = true) :
    mutexOK (mark_block doc mac reason).devices = true := by
  cases h : getDev doc.devices (pyUpper mac) with
  | none =>
      by_cases hr : pyTruthy reason = true <;>
        simp only [mark_block, h, hr, getDev_setDev] <;>
        simp only [if_true, Bool.false_eq_true, if_false, if_pos rfl]
      · exact mutexOK_setDev (mutexOK_setDev hinv (by simp)) (by simp)
      · exact mutexOK_setDev hinv (by simp)
  | some dev =>
      by_cases hr : pyTruthy reason = true <;>
        simp only [mark_block, h, hr, getDev_setDev] <;>
        simp only [if_true, Bool.false_eq_true, if_false, if_pos rfl]
      · exact mutexOK_setDev (mutexOK_setDev hinv (by simp)) (by simp)
      · exact mutexOK_setDev hinv (by simp)

theorem mutex_preserved_unallow (doc : RegistryDoc) (mac : String)
    (hinv : mutexOK doc.devices = true) :
    mutexOK (unallow doc mac).devices = true := by
  cases h : getDev doc.devices (pyUpper mac) with
  | none => simpa only [unallow, h] using hinv
  | some dev =>
      simp only [unallow, h]
      exact mutexOK_setDev hinv (by simp)

theorem mutex_preserved_unblock (doc : RegistryDoc) (mac : String)
    (hinv : mutexOK doc.devices = true) :
    mutexOK (store_unblock doc mac).devices = true := by
  cases h : getDev doc.devices (pyUpper mac) with
  | none => simpa only [store_unblock, h] using hinv
  | some dev =>
      simp only [store_unblock, h]
      exact mutexOK_setDev hinv (by simp)

theorem mutex_preserved_set_name (doc : RegistryDoc) (mac : String) (name : String)
    (hinv : mutexOK doc.devices = true) :
    mutexOK (set_name doc mac name).devices = true := by
  cases h : getDev doc.devices (pyUpper mac) with
  | none => simpa only [set_name, h] using hinv
  | some dev =>
      simp only [set_name, h]
      apply mutexOK_setDev hinv
      simpa using mutexOK_getDev hinv h

/-! ## Claim theorems -/

/-- C1: after `mark_allow` (resp. `mark_block`) the record for the canonical
MAC has exactly the `allow` (resp. `block`) flag set and the other cleared,
and every registry operation (`upsert_device`, `mark_allow`, `mark_block`,
`unallow`, `unblock`, `set_name`) preserves the per-record mutual-exclusion
predicate `not (allowed and blocked)`. -/
theorem claim_C1_mark_flags_and_mutex_invariant :
    (∀ (doc : RegistryDoc) (mac : String) (name : Option String),
      ((getDev (mark_allow doc mac name).devices (pyUpper mac)).map
        (fun r => (r.allow, r.block))) = some (true, false))
  ∧ (∀ (doc : RegistryDoc) (mac : String) (reason : Option String),
      ((getDev (mark_block doc mac reason).devices (pyUpper mac)).map
        (fun r => (r.allow, r.block))) = some (false, true))
  ∧ (∀ (doc : RegistryDoc) (op : Op),
      mutexOK doc.devices = true → mutexOK (applyOp doc op).devices = true) :=
  ⟨mark_allow_getDev, mark_block_getDev, fun doc op h => by
    cases op with
    | upsertOp mac ip vendor now => exact mutex_preserved_upsert doc mac ip vendor now h
    | markAllowOp mac name => exact mutex_preserved_mark_allow doc mac name h
    | markBlockOp mac reason => exact mutex_preserved_mark_block doc mac reason h
    | unallowOp mac => exact mutex_preserved_unallow doc mac h
    | unblockOp mac => exact mutex_preserved_unblock doc mac h
    | setNameOp mac name => exact mutex_preserved_set_name doc mac name h⟩

/-- Witness for C1 at a concrete registry and operation. -/
theorem claim_C1_witness :
    mutexOK emptyDoc.devices = true ∧
    mutexOK (applyOp emptyDoc (.markAllowOp "aa:bb:cc:dd:ee:ff" (some "tv"))).devices = true :=
  ⟨rfl, claim_C1_mark_flags_and_mutex_invariant.2.2 emptyDoc
     (.markAllowOp "aa:bb:cc:dd:ee:ff" (some "tv")) rfl⟩

/-- The record with its `last_seen` key masked out, for stating
idempotence modulo `lastSeen`. -/
def maskLastSeen (r : DeviceRecord) : DeviceRecord := { r with last_seen := none }

/-- C4: applying `upsert_device` twice with the same `(mac, ip, vendor)` yields
the same record for that MAC as applying it once, except possibly `last_seen`. -/
theorem claim_C4_upsert_idempotent_mod_lastSeen (doc : RegistryDoc) (mac : String)
    (ip vendor : Option String) (t1 t2 : Nat) :
    ((getDev (upsert_device (upsert_device doc mac ip vendor t1) mac ip vendor t2).devices
        (pyUpper mac)).map maskLastSeen)
  = ((getDev (upsert_device doc mac ip vendor t1).devices (pyUpper mac)).map maskLastSeen) := by
  cases h : getDev doc.devices (pyUpper mac) with
  | none =>
      have h1 := upsert_getDev_none doc mac ip vendor t1 h
      have h2 := upsert_getDev_some _ mac ip vendor t2 _ h1
      rw [h1, h2]
      by_cases ht : pyTruthy vendor = true <;> simp [maskLastSeen, pyOr, ht]
  | some r =>
      have h1 := upsert_getDev_some doc mac ip vendor t1 r h
      have h2 := upsert_getDev_some _ mac ip vendor t2 _ h1
      rw [h1, h2]
      by_cases ht : pyTruthy vendor = true <;> simp [maskLastSeen, pyOr, ht]

/-- C5: for a non-empty run of upserts on one MAC starting from a registry in
which it is absent, `first_seen` is the first call's timestamp and stays so,
and `last_seen` is the timestamp of the most recent call. -/
theorem claim_C5_firstSeen_once_lastSeen_latest (doc : RegistryDoc) (mac : String)
    (ip vendor : Option String) (t : Nat)
    (rest : List (Option String × Option String × Nat))
    (habs : getDev doc.devices (pyUpper mac) = none) :
    ∃ r, getDev (applyUpserts doc mac ((ip, vendor, t) :: rest)).devices (pyUpper mac) = some r ∧
         r.first_seen = some t ∧
         r.last_seen = some (lastTime t rest) := by
  have h1 := upsert_getDev_none doc mac ip vendor t habs
  obtain ⟨r', hget, hfs, hls⟩ := applyUpserts_tracks mac rest _ _ h1
  refine ⟨r', hget, hfs, ?_⟩
  rw [hls]
  exact lastSeenAfter_some t rest

/-- Witness for C5 at a concrete two-call run. -/
theorem claim_C5_witness :
    getDev emptyDoc.devices (pyUpper "aa:bb") = none ∧
    (∃ r, getDev (applyUpserts emptyDoc "aa:bb"
          [(some "10.0.0.2", some "Acme", 3), (none, none, 9)]).devices (pyUpper "aa:bb") = some r ∧
         r.first_seen = some 3 ∧
         r.last_seen = some (lastTime 3 [(none, none, 9)])) :=
  ⟨rfl, claim_C5_firstSeen_once_lastSeen_latest emptyDoc "aa:bb" (some "10.0.0.2") (some "Acme") 3
      [(none, none, 9)] rfl⟩

/-- C10: a record created by `mark_allow`/`mark_block` on an absent MAC has no
`first_seen`, `last_seen` or `ip` key, and no later run of `upsert_device`
calls for that MAC ever sets `first_seen` (the creation defaults run only when
the MAC is absent). -/
theorem claim_C10_mark_created_record_has_no_firstSeen :
    (∀ (doc : RegistryDoc) (mac : String) (name : Option String),
      getDev doc.devices (pyUpper mac) = none →
      ((getDev (mark_allow doc mac name).devices (pyUpper mac)).map
        (fun r => (r.first_seen, r.last_seen, r.ip))) = some (none, none, none))
  ∧ (∀ (doc : RegistryDoc) (mac : String) (reason : Option String),
      getDev doc.devices (pyUpper mac) = none →
      ((getDev (mark_block doc mac reason).devices (pyUpper mac)).map
        (fun r => (r.first_seen, r.last_seen, r.ip))) = some (none, none, none))
  ∧ (∀ (doc : RegistryDoc) (mac : String)
      (us : List (Option String × Option String × Nat)) (r : DeviceRecord),
      getDev doc.devices (pyUpper mac) = some r → r.first_seen = none →
      ∃ r', getDev (applyUpserts doc mac us).devices (pyUpper mac) = some r' ∧
            r'.first_seen = none) := by
  refine ⟨?_, ?_, ?_⟩
  · intro doc mac name h
    simp [mark_allow, h, getDev_setDev]
  · intro doc mac reason h
    by_cases hr : pyTruthy reason = true <;>
      simp [mark_block, h, hr, getDev_setDev]
  · intro doc mac us r h hfs
    obtain ⟨r', hget, hfs', _⟩ := applyUpserts_tracks mac us doc r h
    exact ⟨r', hget, hfs'.trans hfs⟩

/-- Witness for C10: a `mark_allow`-created record, then an upsert run. -/
theorem claim_C10_witness :
    getDev emptyDoc.devices (pyUpper "aa") = none ∧
    ((getDev (mark_allow emptyDoc "aa" (some "tv")).devices (pyUpper "aa")).map
        (fun r => (r.first_seen, r.last_seen, r.ip))) = some (none, none, none) ∧
    getDev (mark_allow emptyDoc "aa" (some "tv")).devices (pyUpper "aa")
      = some { name := some "tv", first_seen := none, last_seen := none,
               allow := true, block := false, ip := none, vendor := none, notes := none } ∧
    (∃ r', getDev (applyUpserts (mark_allow emptyDoc "aa" (some "tv")) "aa"
            [(some "10.0.0.2", none, 4)]).devices (pyUpper "aa") = some r' ∧
           r'.first_seen = none) :=
  ⟨rfl,
   claim_C10_mark_created_record_has_no_firstSeen.1 emptyDoc "aa" (some "tv") rfl,
   rfl,
   claim_C10_mark_created_record_has_no_firstSeen.2.2 (mark_allow emptyDoc "aa" (some "tv")) "aa"
     [(some "10.0.0.2", none, 4)]
     { name := some "tv", first_seen := none, last_seen := none,
       allow := true, block := false, ip := none, vendor := none, notes := none }
     rfl rfl⟩

/-- C2: starting `block` twice for the same MAC (in any letter case) without
an intervening `unblock` leaves exactly one session entry for that MAC, and
the second `block` is a no-op. -/
theorem claim_C2_at_most_one_session (s s1 s2 : Sessions) (mac1 mac2 : String)
    (ip1 ip2 : Option String)
    (hnd : s.Nodup) (hcase : (pyUpper mac1) = (pyUpper mac2))
    (h1 : ArpSpoofBlocker.block s mac1 ip1 = .ok s1)
    (h2 : ArpSpoofBlocker.block s1 mac2 ip2 = .ok s2) :
    s2 = s1 ∧ s1.count (pyUpper mac1) = 1 := by
  unfold ArpSpoofBlocker.block at h1 h2
  rw [← hcase] at h2
  by_cases hip1 : pyTruthy ip1 = false
  · rw [if_pos hip1] at h1
    simp at h1
  · rw [if_neg hip1] at h1
    by_cases hip2 : pyTruthy ip2 = false
    · rw [if_pos hip2] at h2
      simp at h2
    · rw [if_neg hip2] at h2
      by_cases hmem1 : (pyUpper mac1) ∈ s
      · rw [if_pos hmem1] at h1
        injection h1 with h1
        subst h1
        rw [if_pos hmem1] at h2
        injection h2 with h2
        exact ⟨h2.symm, List.count_eq_one_of_mem hnd hmem1⟩
      · rw [if_neg hmem1] at h1
        injection h1 with h1
        subst h1
        have hmem : (pyUpper mac1) ∈ s ++ [(pyUpper mac1)] := by simp
        rw [if_pos hmem] at h2
        injection h2 with h2
        refine ⟨h2.symm, ?_⟩
        rw [List.count_append, List.count_eq_zero_of_not_mem hmem1]
        simp

/-- Witness for C2 at a concrete pair of `block` calls with mixed case. -/
theorem claim_C2_witness :
    ([] : Sessions).Nodup ∧
    (pyUpper "aa:bb:cc:dd:ee:ff") = (pyUpper "AA:BB:cc:dd:ee:ff") ∧
    ArpSpoofBlocker.block [] "aa:bb:cc:dd:ee:ff" (some "10.0.0.9")
      = .ok ["AA:BB:CC:DD:EE:FF"] ∧
    ArpSpoofBlocker.block ["AA:BB:CC:DD:EE:FF"] "AA:BB:cc:dd:ee:ff" (some "10.0.0.9")
      = .ok ["AA:BB:CC:DD:EE:FF"] ∧
    (["AA:BB:CC:DD:EE:FF"] = ["AA:BB:CC:DD:EE:FF"] ∧
     (["AA:BB:CC:DD:EE:FF"] : Sessions).count (pyUpper "aa:bb:cc:dd:ee:ff") = 1) :=
  ⟨List.nodup_nil, by decide, rfl, rfl,
   claim_C2_at_most_one_session [] ["AA:BB:CC:DD:EE:FF"] ["AA:BB:CC:DD:EE:FF"]
     "aa:bb:cc:dd:ee:ff" "AA:BB:cc:dd:ee:ff" (some "10.0.0.9") (some "10.0.0.9")
     List.nodup_nil (by decide) rfl rfl⟩

/-- The number of scan entries whose canonical MAC is `M`. -/
def countMac (M : String) (seen : List ScanEntry) : Nat :=
  (seen.filter (fun e => pyUpper e.mac == M)).length

theorem countMac_cons_self {M : String} {e : ScanEntry} (h : pyUpper e.mac = M)
    (rest : List ScanEntry) : countMac M (e :: rest) = countMac M rest + 1 := by
  simp [countMac, List.filter_cons, h]

theorem countMac_cons_ne {M : String} {e : ScanEntry} (h : ¬ pyUpper e.mac = M)
    (rest : List ScanEntry) : countMac M (e :: rest) = countMac M rest := by
  simp [countMac, List.filter_cons, h]

theorem cycle_fold_count (pa pb : String → Bool) (now : Nat) (M : String) :
    ∀ (seen : List ScanEntry) (d0 : RegistryDoc) (ns0 : List String),
      ((seen.foldl (cycleStep pa pb now) (d0, ns0)).2).count M
        = ns0.count M + (if pa M = false ∧ pb M = false then countMac M seen else 0) := by
  intro seen
  induction seen with
  | nil =>
      intro d0 ns0
      simp [countMac]
  | cons e rest ih =>
      intro d0 ns0
      rw [List.foldl_cons]
      by_cases hc : pa (pyUpper e.mac) = false ∧ pb (pyUpper e.mac) = false
      · have hstep : cycleStep pa pb now (d0, ns0) e
            = (upsert_device d0 (pyUpper e.mac) e.ip e.vendor now,
               ns0 ++ [pyUpper e.mac]) := by
          simp [cycleStep, hc]
        rw [hstep, ih]
        by_cases hM : pyUpper e.mac = M
        · rw [hM] at hc
          rw [countMac_cons_self hM, if_pos hc, if_pos hc, List.count_append, hM]
          simp
          omega
        · have h0 : List.count M [pyUpper e.mac] = 0 :=
            List.count_eq_zero_of_not_mem (by
              simp only [List.mem_singleton]
              exact fun hh => hM hh.symm)
          rw [countMac_cons_ne hM, List.count_append, h0]
          omega
      · have hstep : cycleStep pa pb now (d0, ns0) e
            = (upsert_device d0 (pyUpper e.mac) e.ip e.vendor now, ns0) := by
          simp [cycleStep, hc]
        rw [hstep, ih]
        by_cases hM : pyUpper e.mac = M
        · rw [hM] at hc
          rw [if_neg hc, if_neg hc]
        · rw [countMac_cons_ne hM]

/-- C3 (amended): in one successful reconciliation cycle, the number of
new-device notifications emitted for a canonical MAC `M` is zero when `M`
was flagged allowed or blocked in the pre-upsert registry snapshot, and
otherwise equals the number of scan entries carrying MAC `M` — hence exactly
one when the scan result lists that MAC once. -/
theorem claim_C3_cycle_notification_count (doc : RegistryDoc) (seen : List ScanEntry)
    (now : Nat) (M : String) :
    ((cycle doc seen now).2).count M
      = if knownAllow doc.devices M = false ∧ knownBlock doc.devices M = false
        then countMac M seen else 0 := by
  unfold cycle
  rw [cycle_fold_count]
  simp

/-- C3 counterexample: a scan result can carry the same unclassified MAC in
two entries (two IPs); the cycle then emits two notifications for that MAC,
not exactly one. -/
theorem claim_C3_counterexample :
    ((cycle emptyDoc
        [{ ip := some "192.168.1.5", mac := "AA:BB:CC:DD:EE:FF", vendor := none },
         { ip := some "192.168.1.6", mac := "AA:BB:CC:DD:EE:FF", vendor := none }] 0).2).count
      "AA:BB:CC:DD:EE:FF" = 2 := by
  rfl

/-- The sentinel test of `_normalize_vendor` on the stripped text: empty or a
case-insensitive "unknown" / "(unknown)". -/
def isSentinel (text : String) : Bool :=
  text == "" || pyLower text == "unknown" || pyLower text == "(unknown)"

/-- C6: vendor normalization — a missing, empty, whitespace-only or sentinel
("unknown"/"(unknown)", case-insensitively) reported vendor falls back to the
vendor-lookup collaborator keyed by MAC; any other reported text is used
stripped, as-is; and the passive `ip neigh` strategy always takes the vendor
from the lookup collaborator. -/
theorem claim_C6_vendor_normalization (lookup : String → Option String) :
    (∀ mac, normalize_vendor lookup mac none = lookup mac)
  ∧ (∀ mac v, isSentinel (pyStrip v) = true →
        normalize_vendor lookup mac (some v) = lookup mac)
  ∧ (∀ mac v, isSentinel (pyStrip v) = false →
        normalize_vendor lookup mac (some v) = some (pyStrip v))
  ∧ (∀ gs e, e ∈ scan_ip_neigh lookup gs → e.vendor = lookup e.mac) := by
  refine ⟨fun mac => rfl, ?_, ?_, ?_⟩
  · intro mac v h
    simp only [isSentinel, Bool.or_eq_true, beq_iff_eq] at h
    by_cases hv : pyTruthy (some v) = true
    · have hneg : ¬(pyStrip v ≠ "" ∧ pyLower (pyStrip v) ≠ "unknown"
          ∧ pyLower (pyStrip v) ≠ "(unknown)") := by
        rcases h with (h | h) | h
        · exact fun hc => hc.1 h
        · exact fun hc => hc.2.1 h
        · exact fun hc => hc.2.2 h
      simp [normalize_vendor, hv, hneg]
    · simp only [Bool.not_eq_true] at hv
      simp [normalize_vendor, hv]
  · intro mac v h
    simp only [isSentinel, Bool.or_eq_false_iff, beq_eq_false_iff_ne, ne_eq] at h
    obtain ⟨⟨h1, h2⟩, h3⟩ := h
    have hv : pyTruthy (some v) = true := by
      simp only [pyTruthy, ne_eq, decide_eq_true_eq]
      intro he
      subst he
      exact h1 rfl
    have hpos : pyStrip v ≠ "" ∧ pyLower (pyStrip v) ≠ "unknown"
        ∧ pyLower (pyStrip v) ≠ "(unknown)" := ⟨h1, h2, h3⟩
    simp [normalize_vendor, hv, hpos]
  · intro gs e he
    simp only [scan_ip_neigh, List.mem_map] at he
    obtain ⟨x, _, rfl⟩ := he
    rfl

/-- Witness for C6 on concrete vendor strings and a concrete neighbor table. -/
theorem claim_C6_witness :
    isSentinel (pyStrip " (Unknown) ") = true ∧
    normalize_vendor (fun m => some ("V " ++ m)) "AA:BB" (some " (Unknown) ")
      = (fun m => some ("V " ++ m)) "AA:BB" ∧
    isSentinel (pyStrip "  Sony  ") = false ∧
    normalize_vendor (fun m => some ("V " ++ m)) "AA:BB" (some "  Sony  ")
      = some (pyStrip "  Sony  ") ∧
    ({ ip := some "10.0.0.7", mac := "AA:BB", vendor := some "V AA:BB" } : ScanEntry)
        ∈ scan_ip_neigh (fun m => some ("V " ++ m)) [("10.0.0.7", "aa:bb")] ∧
    ({ ip := some "10.0.0.7", mac := "AA:BB", vendor := some "V AA:BB" } : ScanEntry).vendor
      = (fun m => some ("V " ++ m))
          ({ ip := some "10.0.0.7", mac := "AA:BB", vendor := some "V AA:BB" } : ScanEntry).mac :=
  ⟨by decide,
   (claim_C6_vendor_normalization (fun m => some ("V " ++ m))).2.1 "AA:BB" " (Unknown) " (by decide),
   by decide,
   (claim_C6_vendor_normalization (fun m => some ("V " ++ m))).2.2.1 "AA:BB" "  Sony  " (by decide),
   by decide,
   (claim_C6_vendor_normalization (fun m => some ("V " ++ m))).2.2.2 [("10.0.0.7", "aa:bb")]
     { ip := some "10.0.0.7", mac := "AA:BB", vendor := some "V AA:BB" } (by decide)⟩

/-- C7 (amended): a non-zero exit makes the scan fail with the `ShellError`
wrapper (the spec's ScanError); every command failure propagates out of the
scan call; and on any scan failure the reconciliation loop performs no
registry mutation that cycle, emits no notification, does not crash, and
proceeds to the next cycle. -/
theorem claim_C7_scan_failure_recovery :
    (∀ cmd out parseLines, scanner_scan cmd (.nonZeroExit out) parseLines
        = .error (.shellError ("cmd failed: " ++ String.intercalate " " cmd ++ "\n" ++ out)))
  ∧ (∀ cmd o parseLines e, run cmd o = .error e →
        scanner_scan cmd o parseLines = .error e)
  ∧ (∀ doc e now, scan_loop_cycle doc (.error e) now = (doc, []))
  ∧ (∀ doc e now rest, scan_loop doc ((.error e, now) :: rest) = scan_loop doc rest) := by
  refine ⟨fun cmd out parseLines => rfl, ?_, fun doc e now => rfl, ?_⟩
  · intro cmd o parseLines e h
    unfold scanner_scan
    rw [h]
  · intro doc e now rest
    simp [scan_loop, scan_loop_cycle]

/-- Witness for C7 at a concrete failing command. -/
theorem claim_C7_witness :
    run ["ip", "neigh", "show", "dev", "wlan0"] .notFound = .error .fileNotFoundError ∧
    scanner_scan ["ip", "neigh", "show", "dev", "wlan0"] .notFound (fun _ => [])
      = .error .fileNotFoundError :=
  ⟨rfl, claim_C7_scan_failure_recovery.2.1 ["ip", "neigh", "show", "dev", "wlan0"]
     .notFound (fun _ => []) .fileNotFoundError rfl⟩

/-- C7 counterexample: a timed-out or missing discovery command escapes
`utils.run` as the raw `TimeoutExpired` / `FileNotFoundError`, not as the
`ShellError` wrapper, so the scan does not fail with the spec's ScanError in
those two cases. -/
theorem claim_C7_counterexample :
    scanner_scan ["arp-scan", "--interface", "wlan0", "--localnet", "--plain",
        "--ignoredups"] .timedOut (fun _ => []) = .error .timeoutExpired
  ∧ PyExc.isShellError .timeoutExpired = false
  ∧ scanner_scan ["arp-scan", "--interface", "wlan0", "--localnet", "--plain",
        "--ignoredups"] .notFound (fun _ => []) = .error .fileNotFoundError
  ∧ PyExc.isShellError .fileNotFoundError = false :=
  ⟨rfl, rfl, rfl, rfl⟩

/-- Does this write attempt fail? -/
def WriteOutcome.isFailureCase : WriteOutcome → Bool
  | .ok => false
  | .failTmpWrite => true
  | .failReplace => true

/-- C8: when persisting a mutation fails (writing the temp file or promoting
it), the operation fails with the storage error and the previously persisted
document at the real path is left exactly as it was. -/
theorem claim_C8_failed_write_preserves_document (fs : FS) (f : RegistryDoc → RegistryDoc)
    (o : WriteOutcome) (h : o.isFailureCase = true) :
    (mutate_persist fs f o).1.real = fs.real
  ∧ (mutate_persist fs f o).2 = .error .oserror := by
  cases o with
  | ok => simp [WriteOutcome.isFailureCase] at h
  | failTmpWrite => exact ⟨rfl, rfl⟩
  | failReplace => exact ⟨rfl, rfl⟩

/-- Witness for C8: a failed replace leaves the real document untouched. -/
theorem claim_C8_witness :
    WriteOutcome.isFailureCase .failReplace = true ∧
    ((mutate_persist { real := emptyDoc, tmp := none }
        (fun d => mark_allow d "aa:bb:cc:dd:ee:ff" (some "phone")) .failReplace).1.real
      = ({ real := emptyDoc, tmp := none } : FS).real ∧
     (mutate_persist { real := emptyDoc, tmp := none }
        (fun d => mark_allow d "aa:bb:cc:dd:ee:ff" (some "phone")) .failReplace).2
      = .error .oserror) :=
  ⟨rfl, claim_C8_failed_write_preserves_document { real := emptyDoc, tmp := none }
     (fun d => mark_allow d "aa:bb:cc:dd:ee:ff" (some "phone")) .failReplace rfl⟩

/-- C9 (amended): each mutation's document read and document write is an
individually atomic locked step, and whenever the two read-modify-write
cycles do not interleave the outcome is exactly their sequential composition;
the lock does not span the whole cycle, so interleavings remain possible
(see the lost-update counterexample). -/
theorem claim_C9_rmw_sequential_composition (d : RegistryDoc)
    (f g : RegistryDoc → RegistryDoc) :
    runSched d (mkThread f) (mkThread g) [true, true, false, false] = g (f d)
  ∧ runSched d (mkThread f) (mkThread g) [false, false, true, true] = f (g d) :=
  ⟨rfl, rfl⟩

/-- C9 counterexample: under the schedule read₁ read₂ write₁ write₂ both
mutations complete, each read and write individually under the lock, yet the
allow-mark of AA:AA:AA:AA:AA:AA is lost — its record is absent from the final
document although either serial order would contain it.  The read-modify-write
cycle is not one mutual-exclusion region, so registry mutations are not
linearizable. -/
theorem claim_C9_counterexample :
    (getDev (runSched emptyDoc
        (mkThread (fun d => mark_allow d "AA:AA:AA:AA:AA:AA" none))
        (mkThread (fun d => mark_block d "BB:BB:BB:BB:BB:BB" none))
        [true, false, true, false]).devices "AA:AA:AA:AA:AA:AA") = none
  ∧ (getDev (mark_block (mark_allow emptyDoc "AA:AA:AA:AA:AA:AA" none)
        "BB:BB:BB:BB:BB:BB" none).devices "AA:AA:AA:AA:AA:AA").isSome = true
  ∧ (getDev (mark_allow (mark_block emptyDoc "BB:BB:BB:BB:BB:BB" none)
        "AA:AA:AA:AA:AA:AA" none).devices "AA:AA:AA:AA:AA:AA").isSome = true := by
  refine ⟨?_, ?_, ?_⟩ <;> rfl
